import Mathlib

/-!
Formal model of the heatmap layer data model in `gmaps/heatmap.py`.

The file embeds the two widget classes `Heatmap` and `WeightedHeatmap`
(together with their shared `_HeatmapOptionsMixin`) as Lean structures, and
embeds trait assignment (traitlets `@validate` / `@observe` semantics: the
validator runs first; on failure the trait keeps its old value and the
observer does not fire; on success the value is stored and the `data`
observer recomputes `data_bounds` synchronously) as explicit state-passing
functions returning the new widget state together with an optional error.

Python floats are modelled as rationals (ℚ); every rational is finite.

The helper modules `gmaps.bounds` (latitude_bounds / longitude_bounds) and
`gmaps.geotraitlets` (is_valid_point, InvalidPointException, ColorAlpha) are
not part of the sources being verified; they are modelled from the
specification where so marked.
-/

/-- Modelled from the spec: `gmaps.geotraitlets.ColorAlpha` is absent from the
sources. A color is a simple name string, an RGB triple, or an RGBA
quadruple. -/
inductive ColorAlpha where
  | name (s : String)
  | rgb (r g b : ℤ)
  | rgba (r g b : ℤ) (a : ℚ)
  deriving DecidableEq

/-- Errors surfaced by trait assignment.  `invalidPoint` / `invalidWeightedPoint`
model `gmaps.geotraitlets.InvalidPointException` carrying the offending point
(heatmap.py lines 127-128 and 176-177 format the point into the message);
`invalidOption` models the `TraitError` raised by a trait whose declared
bounds are violated. -/
inductive TraitError where
  | invalidPoint (point : ℚ × ℚ)
  | invalidWeightedPoint (point : ℚ × ℚ × ℚ)
  | invalidOption
  deriving DecidableEq

/-- Modelled from the spec: `gmaps.geotraitlets.is_valid_point` is absent from
the sources.  A point is valid when its latitude lies in [-90, 90] and its
longitude lies in [-180, 180] (both finite; rationals are always finite). -/
def is_valid_point (p : ℚ × ℚ) : Bool :=
  decide (-90 ≤ p.1) && decide (p.1 ≤ 90) && decide (-180 ≤ p.2) && decide (p.2 ≤ 180)

/-- Modelled from the spec: `gmaps.bounds.latitude_bounds` is absent from the
sources.  Latitude bounds are the simple min/max over the latitude values; an
empty sequence yields an explicit "no bounds" sentinel (inverted full range). -/
def latitude_bounds (latitudes : List ℚ) : ℚ × ℚ :=
  match latitudes with
  | [] => (90, -90)
  | a :: rest => (rest.foldl min a, rest.foldl max a)

/-- One step of the scan locating the adjacent pair with the largest gap. -/
def gapStep (acc : Option (ℚ × ℚ)) (p : ℚ × ℚ) : Option (ℚ × ℚ) :=
  match acc with
  | none => some p
  | some q => if q.2 - q.1 < p.2 - p.1 then some p else some q

/-- The adjacent pair of a list realizing the largest gap between consecutive
elements (none when the list has fewer than two elements). -/
def maxAdjGap (l : List ℚ) : Option (ℚ × ℚ) :=
  (l.zip l.tail).foldl gapStep none

/-- Modelled from the spec: `gmaps.bounds.longitude_bounds` is absent from the
sources.  Longitude bounds choose the circular interval of minimal angular
width containing all longitudes, via gap-finding among sorted angles on the
circle: sort the longitudes, find the largest gap between consecutive values
(comparing it against the wrap-around gap from the largest value back to the
smallest plus 360), and return the complement of that largest gap.  A result
with min > max denotes a span crossing the ±180° antimeridian.  An empty
sequence yields an explicit "no bounds" sentinel (inverted full range). -/
def longitude_bounds (longitudes : List ℚ) : ℚ × ℚ :=
  match List.insertionSort (· ≤ ·) longitudes with
  | [] => (180, -180)
  | a :: rest =>
    let b := rest.getLastD a
    match maxAdjGap (a :: rest) with
    | none => (a, b)
    | some (u, v) => if a + 360 - b < v - u then (v, u) else (a, b)

/-- Validation shared by the `Float` traits declared in heatmap.py lines
48-51: an optional lower bound, an optional upper bound, and whether `None`
is allowed. -/
def floatTraitValidate (mn mx : Option ℚ) (allowNone : Bool) (v : Option ℚ) : Bool :=
  match v with
  | none => allowNone
  | some x =>
      (match mn with | some m => decide (m ≤ x) | none => true) &&
      (match mx with | some M => decide (x ≤ M) | none => true)

/-- Validation of the `gradient` trait declared in heatmap.py lines 52-54:
`List(trait=ColorAlpha(), allow_none=True, minlen=1)`. -/
def validate_gradient (v : Option (List ColorAlpha)) : Bool :=
  match v with
  | none => true
  | some colors => decide (1 ≤ colors.length)

/-- The option traits shared by both layer classes (heatmap.py lines 12-58),
with their declared defaults (`gradient` defaults to `None` via the
`@default("gradient")` hook). -/
structure _HeatmapOptionsMixin where
  max_intensity : Option ℚ := none
  point_radius : Option ℚ := none
  dissipating : Bool := true
  opacity : ℚ := 0.6
  gradient : Option (List ColorAlpha) := none
  deriving DecidableEq

/-- The `Heatmap` widget state (heatmap.py lines 77-134): the mixin options
plus `data` (a list of (latitude, longitude) pairs) and `data_bounds`. -/
structure Heatmap extends _HeatmapOptionsMixin where
  data : List (ℚ × ℚ) := []
  data_bounds : List (ℚ × ℚ) := []
  deriving DecidableEq

/-- The `WeightedHeatmap` widget state (heatmap.py lines 137-184): the mixin
options plus `data` (a list of (latitude, longitude, weight) triples) and
`data_bounds`. -/
structure WeightedHeatmap extends _HeatmapOptionsMixin where
  data : List (ℚ × ℚ × ℚ) := []
  data_bounds : List (ℚ × ℚ) := []
  deriving DecidableEq

/-- A freshly constructed `Heatmap` with no constructor arguments. -/
def Heatmap.init : Heatmap := {}

/-- A freshly constructed `WeightedHeatmap` with no constructor arguments. -/
def WeightedHeatmap.init : WeightedHeatmap := {}

/-- heatmap.py lines 123-129: the `@validate("data")` hook of `Heatmap`.  It
scans the proposed value and raises `InvalidPointException` at the first
point that is not a valid (latitude, longitude) pair. -/
def Heatmap._validate_data (proposal : List (ℚ × ℚ)) : Option TraitError :=
  match proposal.find? (fun point => !is_valid_point point) with
  | some point => some (TraitError.invalidPoint point)
  | none => none

/-- heatmap.py lines 60-68: `set_bounds`, specialized to `Heatmap` rows
(`row[0]` is the latitude, `row[1]` the longitude of a pair). -/
def Heatmap.set_bounds (s : Heatmap) (data : List (ℚ × ℚ)) : Heatmap :=
  let lat_bounds := latitude_bounds (data.map fun row => row.1)
  let lon_bounds := longitude_bounds (data.map fun row => row.2)
  { s with data_bounds := [(lat_bounds.1, lon_bounds.1), (lat_bounds.2, lon_bounds.2)] }

/-- Assignment to `Heatmap.data`: the validator runs first (heatmap.py lines
123-129); on failure the widget state is unchanged and the error is
surfaced; on success the value is stored and the `@observe("data")` hook
(lines 131-134) recomputes the bounds synchronously in the same call. -/
def Heatmap.assignData (s : Heatmap) (proposal : List (ℚ × ℚ)) :
    Heatmap × Option TraitError :=
  match Heatmap._validate_data proposal with
  | some e => (s, some e)
  | none => (Heatmap.set_bounds { s with data := proposal } proposal, none)

/-- heatmap.py lines 172-179: the `@validate("data")` hook of
`WeightedHeatmap`.  It validates only `point[:2]`, the first two components
of each triple; the body contains only a `# check weight` comment where a
weight check would go, so no weight check is performed. -/
def WeightedHeatmap._validate_data (proposal : List (ℚ × ℚ × ℚ)) : Option TraitError :=
  match proposal.find? (fun point => !is_valid_point (point.1, point.2.1)) with
  | some point => some (TraitError.invalidWeightedPoint point)
  | none => none

/-- heatmap.py lines 60-68: `set_bounds`, specialized to `WeightedHeatmap`
rows (`row[0]` is the latitude, `row[1]` the longitude of a triple). -/
def WeightedHeatmap.set_bounds (s : WeightedHeatmap) (data : List (ℚ × ℚ × ℚ)) :
    WeightedHeatmap :=
  let lat_bounds := latitude_bounds (data.map fun row => row.1)
  let lon_bounds := longitude_bounds (data.map fun row => row.2.1)
  { s with data_bounds := [(lat_bounds.1, lon_bounds.1), (lat_bounds.2, lon_bounds.2)] }

/-- Assignment to `WeightedHeatmap.data`: validator (heatmap.py lines
172-179) then, on success, bounds recomputation via the `@observe("data")`
hook (lines 181-184). -/
def WeightedHeatmap.assignData (s : WeightedHeatmap) (proposal : List (ℚ × ℚ × ℚ)) :
    WeightedHeatmap × Option TraitError :=
  match WeightedHeatmap._validate_data proposal with
  | some e => (s, some e)
  | none => (WeightedHeatmap.set_bounds { s with data := proposal } proposal, none)

/-- Assignment to `Heatmap.max_intensity` (heatmap.py line 48:
`Float(default_value=None, allow_none=True)` — no declared bounds). -/
def Heatmap.assignMaxIntensity (s : Heatmap) (v : Option ℚ) : Heatmap × Option TraitError :=
  if floatTraitValidate none none true v then ({ s with max_intensity := v }, none)
  else (s, some TraitError.invalidOption)

/-- Assignment to `Heatmap.point_radius` (heatmap.py line 49). -/
def Heatmap.assignPointRadius (s : Heatmap) (v : Option ℚ) : Heatmap × Option TraitError :=
  if floatTraitValidate none none true v then ({ s with point_radius := v }, none)
  else (s, some TraitError.invalidOption)

/-- Assignment to `Heatmap.dissipating` (heatmap.py line 50: a plain `Bool`
trait, every boolean is accepted). -/
def Heatmap.assignDissipating (s : Heatmap) (v : Bool) : Heatmap × Option TraitError :=
  ({ s with dissipating := v }, none)

/-- Assignment to `Heatmap.opacity` (heatmap.py line 51:
`Float(default_value=0.6, min=0.0, max=1.0)` — out-of-range values are
rejected, not clamped). -/
def Heatmap.assignOpacity (s : Heatmap) (v : ℚ) : Heatmap × Option TraitError :=
  if floatTraitValidate (some 0) (some 1) false (some v) then ({ s with opacity := v }, none)
  else (s, some TraitError.invalidOption)

/-- Assignment to `Heatmap.gradient` (heatmap.py lines 52-54). -/
def Heatmap.assignGradient (s : Heatmap) (v : Option (List ColorAlpha)) :
    Heatmap × Option TraitError :=
  if validate_gradient v then ({ s with gradient := v }, none)
  else (s, some TraitError.invalidOption)

/-- Assignment to `WeightedHeatmap.max_intensity` (heatmap.py line 48). -/
def WeightedHeatmap.assignMaxIntensity (s : WeightedHeatmap) (v : Option ℚ) :
    WeightedHeatmap × Option TraitError :=
  if floatTraitValidate none none true v then ({ s with max_intensity := v }, none)
  else (s, some TraitError.invalidOption)

/-- Assignment to `WeightedHeatmap.point_radius` (heatmap.py line 49). -/
def WeightedHeatmap.assignPointRadius (s : WeightedHeatmap) (v : Option ℚ) :
    WeightedHeatmap × Option TraitError :=
  if floatTraitValidate none none true v then ({ s with point_radius := v }, none)
  else (s, some TraitError.invalidOption)

/-- Assignment to `WeightedHeatmap.dissipating` (heatmap.py line 50). -/
def WeightedHeatmap.assignDissipating (s : WeightedHeatmap) (v : Bool) :
    WeightedHeatmap × Option TraitError :=
  ({ s with dissipating := v }, none)

/-- Assignment to `WeightedHeatmap.opacity` (heatmap.py line 51). -/
def WeightedHeatmap.assignOpacity (s : WeightedHeatmap) (v : ℚ) :
    WeightedHeatmap × Option TraitError :=
  if floatTraitValidate (some 0) (some 1) false (some v) then ({ s with opacity := v }, none)
  else (s, some TraitError.invalidOption)

/-- Assignment to `WeightedHeatmap.gradient` (heatmap.py lines 52-54). -/
def WeightedHeatmap.assignGradient (s : WeightedHeatmap) (v : Option (List ColorAlpha)) :
    WeightedHeatmap × Option TraitError :=
  if validate_gradient v then ({ s with gradient := v }, none)
  else (s, some TraitError.invalidOption)

/-- The smallest element of a nonempty list of rationals (0 for the empty
list, which is never used). -/
def listMin : List ℚ → ℚ
  | [] => 0
  | a :: l => l.foldl min a

/-- The largest element of a nonempty list of rationals (0 for the empty
list, which is never used). -/
def listMax : List ℚ → ℚ
  | [] => 0
  | a :: l => l.foldl max a

/-- Membership in a longitude span (min, max): when min ≤ max the span is the
plain interval; when min > max the span crosses the ±180° antimeridian and
contains the longitudes on either side. -/
def inLonSpan (b : ℚ × ℚ) (x : ℚ) : Prop :=
  if b.1 ≤ b.2 then b.1 ≤ x ∧ x ≤ b.2 else b.1 ≤ x ∨ x ≤ b.2

/-- Angular width of a longitude span (min, max): max - min, plus a full turn
when the span crosses the antimeridian. -/
def lonSpanWidth (b : ℚ × ℚ) : ℚ :=
  if b.1 ≤ b.2 then b.2 - b.1 else b.2 - b.1 + 360

/-- A fold of `min` never exceeds its starting value. -/
theorem foldlMin_le_init (l : List ℚ) : ∀ a : ℚ, l.foldl min a ≤ a := by
  induction l with
  | nil => intro a; exact le_refl a
  | cons x xs ih => intro a; exact le_trans (ih (min a x)) (min_le_left a x)

/-- A fold of `min` returns its starting value or a list element. -/
theorem foldlMin_mem (l : List ℚ) : ∀ a : ℚ, l.foldl min a = a ∨ l.foldl min a ∈ l := by
  induction l with
  | nil => intro a; exact Or.inl rfl
  | cons x xs ih =>
    intro a
    rcases ih (min a x) with h | h
    · rcases min_choice a x with h2 | h2
      · exact Or.inl (h.trans h2)
      · refine Or.inr ?_
        rw [List.foldl_cons, h, h2]
        exact List.mem_cons_self x xs
    · exact Or.inr (List.mem_cons_of_mem x h)

/-- A fold of `min` is a lower bound for the list elements. -/
theorem foldlMin_le_mem (l : List ℚ) : ∀ a : ℚ, ∀ y ∈ l, l.foldl min a ≤ y := by
  induction l with
  | nil => intro a y hy; exact absurd hy (List.not_mem_nil y)
  | cons x xs ih =>
    intro a y hy
    rcases List.mem_cons.mp hy with rfl | hy2
    · exact le_trans (foldlMin_le_init xs (min a y)) (min_le_right a y)
    · exact ih (min a x) y hy2

/-- A fold of `max` is at least its starting value. -/
theorem le_foldlMax_init (l : List ℚ) : ∀ a : ℚ, a ≤ l.foldl max a := by
  induction l with
  | nil => intro a; exact le_refl a
  | cons x xs ih => intro a; exact le_trans (le_max_left a x) (ih (max a x))

/-- A fold of `max` returns its starting value or a list element. -/
theorem foldlMax_mem (l : List ℚ) : ∀ a : ℚ, l.foldl max a = a ∨ l.foldl max a ∈ l := by
  induction l with
  | nil => intro a; exact Or.inl rfl
  | cons x xs ih =>
    intro a
    rcases ih (max a x) with h | h
    · rcases max_choice a x with h2 | h2
      · exact Or.inl (h.trans h2)
      · refine Or.inr ?_
        rw [List.foldl_cons, h, h2]
        exact List.mem_cons_self x xs
    · exact Or.inr (List.mem_cons_of_mem x h)

/-- A fold of `max` is an upper bound for the list elements. -/
theorem mem_le_foldlMax (l : List ℚ) : ∀ a : ℚ, ∀ y ∈ l, y ≤ l.foldl max a := by
  induction l with
  | nil => intro a y hy; exact absurd hy (List.not_mem_nil y)
  | cons x xs ih =>
    intro a y hy
    rcases List.mem_cons.mp hy with rfl | hy2
    · exact le_trans (le_max_right a y) (le_foldlMax_init xs (max a y))
    · exact ih (max a x) y hy2

/-- The minimum of a nonempty list is one of its elements. -/
theorem listMin_mem (x : ℚ) (xs : List ℚ) : listMin (x :: xs) ∈ x :: xs := by
  show xs.foldl min x ∈ x :: xs
  rcases foldlMin_mem xs x with h | h
  · rw [h]; exact List.mem_cons_self x xs
  · exact List.mem_cons_of_mem x h

/-- The minimum of a nonempty list is a lower bound. -/
theorem listMin_le (x : ℚ) (xs : List ℚ) : ∀ y ∈ x :: xs, listMin (x :: xs) ≤ y := by
  intro y hy
  show xs.foldl min x ≤ y
  rcases List.mem_cons.mp hy with rfl | hy2
  · exact foldlMin_le_init xs y
  · exact foldlMin_le_mem xs x y hy2

/-- The maximum of a nonempty list is one of its elements. -/
theorem listMax_mem (x : ℚ) (xs : List ℚ) : listMax (x :: xs) ∈ x :: xs := by
  show xs.foldl max x ∈ x :: xs
  rcases foldlMax_mem xs x with h | h
  · rw [h]; exact List.mem_cons_self x xs
  · exact List.mem_cons_of_mem x h

/-- The maximum of a nonempty list is an upper bound. -/
theorem le_listMax (x : ℚ) (xs : List ℚ) : ∀ y ∈ x :: xs, y ≤ listMax (x :: xs) := by
  intro y hy
  show y ≤ xs.foldl max x
  rcases List.mem_cons.mp hy with rfl | hy2
  · exact le_foldlMax_init xs y
  · exact mem_le_foldlMax xs x y hy2

/-- `getLastD` returns an element of the extended list. -/
theorem getLastD_mem_cons (rest : List ℚ) : ∀ a : ℚ, rest.getLastD a ∈ a :: rest := by
  induction rest with
  | nil => intro a; exact List.mem_cons_self a []
  | cons c cs ih =>
    intro a
    rw [List.getLastD_cons]
    exact List.mem_cons_of_mem a (ih c)

/-- In a sorted list the head is a lower bound. -/
theorem sorted_head_le (a : ℚ) (rest : List ℚ) (hs : List.Sorted (· ≤ ·) (a :: rest)) :
    ∀ y ∈ a :: rest, a ≤ y := by
  intro y hy
  rcases List.mem_cons.mp hy with rfl | hy2
  · exact le_refl y
  · exact (List.sorted_cons.mp hs).1 y hy2

/-- In a sorted list the last element is an upper bound. -/
theorem sorted_le_getLastD (rest : List ℚ) : ∀ a : ℚ,
    List.Sorted (· ≤ ·) (a :: rest) → ∀ y ∈ a :: rest, y ≤ rest.getLastD a := by
  induction rest with
  | nil =>
    intro a _ y hy
    rcases List.mem_cons.mp hy with rfl | hy2
    · exact le_refl _
    · exact absurd hy2 (List.not_mem_nil y)
  | cons c cs ih =>
    intro a hs y hy
    rw [List.getLastD_cons]
    have hcs : List.Sorted (· ≤ ·) (c :: cs) := (List.sorted_cons.mp hs).2
    have hac : a ≤ c := (List.sorted_cons.mp hs).1 c (List.mem_cons_self c cs)
    rcases List.mem_cons.mp hy with rfl | hy2
    · exact le_trans hac (ih c hcs c (List.mem_cons_self c cs))
    · exact ih c hcs y hy2

/-- An adjacent pair of a sorted list is ordered and bounded by the list's
head and last element. -/
theorem sorted_adj_bounds (rest : List ℚ) : ∀ a : ℚ,
    List.Sorted (· ≤ ·) (a :: rest) → ∀ u v : ℚ, (u, v) ∈ (a :: rest).zip rest →
    a ≤ u ∧ u ≤ v ∧ v ≤ rest.getLastD a := by
  induction rest with
  | nil => intro a _ u v h; exact absurd h (List.not_mem_nil _)
  | cons c cs ih =>
    intro a hs u v h
    have hcs : List.Sorted (· ≤ ·) (c :: cs) := (List.sorted_cons.mp hs).2
    have hac : a ≤ c := (List.sorted_cons.mp hs).1 c (List.mem_cons_self c cs)
    rw [List.getLastD_cons]
    rw [List.zip_cons_cons] at h
    rcases List.mem_cons.mp h with heq | h2
    · injection heq with hu hv
      subst hu
      subst hv
      exact ⟨le_refl u, hac, sorted_le_getLastD cs v hcs v (List.mem_cons_self v cs)⟩
    · have hb := ih c hcs u v h2
      exact ⟨le_trans hac hb.1, hb.2.1, hb.2.2⟩

/-- An adjacent pair of a sorted list splits the elements: everything is at
most the left endpoint or at least the right endpoint. -/
theorem sorted_adj_partition (rest : List ℚ) : ∀ a : ℚ,
    List.Sorted (· ≤ ·) (a :: rest) → ∀ u v : ℚ, (u, v) ∈ (a :: rest).zip rest →
    ∀ x ∈ a :: rest, x ≤ u ∨ v ≤ x := by
  induction rest with
  | nil => intro a _ u v h; exact absurd h (List.not_mem_nil _)
  | cons c cs ih =>
    intro a hs u v h x hx
    have hcs : List.Sorted (· ≤ ·) (c :: cs) := (List.sorted_cons.mp hs).2
    have hac : a ≤ c := (List.sorted_cons.mp hs).1 c (List.mem_cons_self c cs)
    rw [List.zip_cons_cons] at h
    rcases List.mem_cons.mp h with heq | h2
    · injection heq with hu hv
      subst hu
      subst hv
      rcases List.mem_cons.mp hx with rfl | hx2
      · exact Or.inl (le_refl x)
      · exact Or.inr (sorted_head_le v cs hcs x hx2)
    · have humem : u ∈ c :: cs := (List.of_mem_zip h2).1
      rcases List.mem_cons.mp hx with rfl | hx2
      · exact Or.inl (le_trans hac (sorted_head_le c cs hcs u humem))
      · exact ih c hcs u v h2 x hx2

/-- The gap-scan returns its accumulator or one of the scanned pairs. -/
theorem foldl_gapStep_mem (pairs : List (ℚ × ℚ)) : ∀ (acc : Option (ℚ × ℚ)) (p : ℚ × ℚ),
    pairs.foldl gapStep acc = some p → acc = some p ∨ p ∈ pairs := by
  induction pairs with
  | nil => intro acc p h; exact Or.inl h
  | cons q qs ih =>
    intro acc p h
    rw [List.foldl_cons] at h
    rcases ih (gapStep acc q) p h with h2 | h2
    · cases acc with
      | none =>
        have hqp : q = p := by simpa [gapStep] using h2
        subst hqp
        exact Or.inr (List.mem_cons_self q qs)
      | some r =>
        by_cases hlt : r.2 - r.1 < q.2 - q.1
        · have hqp : q = p := by simpa [gapStep, hlt] using h2
          subst hqp
          exact Or.inr (List.mem_cons_self q qs)
        · have hrp : r = p := by simpa [gapStep, hlt] using h2
          subst hrp
          exact Or.inl rfl
    · exact Or.inr (List.mem_cons_of_mem q h2)

/-- The pair returned by `maxAdjGap` is an adjacent pair of the list. -/
theorem maxAdjGap_mem (l : List ℚ) (u v : ℚ) (h : maxAdjGap l = some (u, v)) :
    (u, v) ∈ l.zip l.tail := by
  simp only [maxAdjGap] at h
  rcases foldl_gapStep_mem (l.zip l.tail) none (u, v) h with h2 | h2
  · exact Option.noConfusion h2
  · exact h2

/-- The head and last element of the sorted permutation of a nonempty list
are its minimum and maximum. -/
theorem sort_head_getLastD (x : ℚ) (xs : List ℚ) (a : ℚ) (rest : List ℚ)
    (hsort : List.insertionSort (· ≤ ·) (x :: xs) = a :: rest) :
    a = listMin (x :: xs) ∧ rest.getLastD a = listMax (x :: xs) := by
  have hperm : (a :: rest).Perm (x :: xs) := by
    rw [← hsort]; exact List.perm_insertionSort _ _
  have hsorted : List.Sorted (· ≤ ·) (a :: rest) := by
    rw [← hsort]; exact List.sorted_insertionSort _ _
  constructor
  · apply le_antisymm
    · exact sorted_head_le a rest hsorted (listMin (x :: xs))
        (hperm.mem_iff.mpr (listMin_mem x xs))
    · exact listMin_le x xs a (hperm.mem_iff.mp (List.mem_cons_self a rest))
  · apply le_antisymm
    · exact le_listMax x xs (rest.getLastD a) (hperm.mem_iff.mp (getLastD_mem_cons rest a))
    · exact sorted_le_getLastD rest a hsorted (listMax (x :: xs))
        (hperm.mem_iff.mpr (listMax_mem x xs))

/-- Unfolding of `longitude_bounds` through the sorted form of its input. -/
theorem longitude_bounds_eq_of_sort (l : List ℚ) (a : ℚ) (rest : List ℚ)
    (hsort : List.insertionSort (· ≤ ·) l = a :: rest) :
    longitude_bounds l =
      match maxAdjGap (a :: rest) with
      | none => (a, rest.getLastD a)
      | some (u, v) =>
          if a + 360 - rest.getLastD a < v - u then (v, u) else (a, rest.getLastD a) := by
  unfold longitude_bounds
  rw [hsort]

/-- When the raw spread of the longitudes is at most 180°, the minimal
circular interval does not cross the antimeridian and is the plain
min/max interval. -/
theorem longitude_bounds_of_span_le (x : ℚ) (xs : List ℚ)
    (hspan : listMax (x :: xs) - listMin (x :: xs) ≤ 180) :
    longitude_bounds (x :: xs) = (listMin (x :: xs), listMax (x :: xs)) := by
  rcases hsort : List.insertionSort (· ≤ ·) (x :: xs) with _ | ⟨a, rest⟩
  · have hx : x ∈ List.insertionSort (· ≤ ·) (x :: xs) :=
      (List.perm_insertionSort _ _).mem_iff.mpr (List.mem_cons_self x xs)
    rw [hsort] at hx
    exact absurd hx (List.not_mem_nil x)
  · have hsorted : List.Sorted (· ≤ ·) (a :: rest) := by
      rw [← hsort]; exact List.sorted_insertionSort _ _
    obtain ⟨hmin, hmax⟩ := sort_head_getLastD x xs a rest hsort
    rw [longitude_bounds_eq_of_sort (x :: xs) a rest hsort]
    split
    · rw [← hmin, ← hmax]
    · rename_i u v heq
      have hadj : (u, v) ∈ (a :: rest).zip rest := by
        have h2 := maxAdjGap_mem (a :: rest) u v heq
        simpa using h2
      obtain ⟨hau, huv, hvb⟩ := sorted_adj_bounds rest a hsorted u v hadj
      have hb180 : rest.getLastD a - a ≤ 180 := by
        rw [hmax, hmin]
        exact hspan
      have hcond : ¬ (a + 360 - rest.getLastD a < v - u) := by
        intro hlt
        linarith
      rw [if_neg hcond, ← hmin, ← hmax]

/-- Every longitude of a validated list lies inside the computed span. -/
theorem longitude_bounds_mem_span (l : List ℚ) (hl : ∀ y ∈ l, -180 ≤ y ∧ y ≤ 180)
    (x : ℚ) (hx : x ∈ l) : inLonSpan (longitude_bounds l) x := by
  rcases hsort : List.insertionSort (· ≤ ·) l with _ | ⟨a, rest⟩
  · have hx2 : x ∈ List.insertionSort (· ≤ ·) l :=
      (List.perm_insertionSort _ _).mem_iff.mpr hx
    rw [hsort] at hx2
    exact absurd hx2 (List.not_mem_nil x)
  · have hperm : (a :: rest).Perm l := by
      rw [← hsort]; exact List.perm_insertionSort _ _
    have hsorted : List.Sorted (· ≤ ·) (a :: rest) := by
      rw [← hsort]; exact List.sorted_insertionSort _ _
    have hx2 : x ∈ a :: rest := hperm.mem_iff.mpr hx
    have hax : a ≤ x := sorted_head_le a rest hsorted x hx2
    have hxb : x ≤ rest.getLastD a := sorted_le_getLastD rest a hsorted x hx2
    have hab : a ≤ rest.getLastD a :=
      sorted_le_getLastD rest a hsorted a (List.mem_cons_self a rest)
    rw [longitude_bounds_eq_of_sort l a rest hsort]
    split
    · simp only [inLonSpan]
      rw [if_pos hab]
      exact ⟨hax, hxb⟩
    · rename_i u v heq
      have hadj : (u, v) ∈ (a :: rest).zip rest := by
        have h2 := maxAdjGap_mem (a :: rest) u v heq
        simpa using h2
      have hpart := sorted_adj_partition rest a hsorted u v hadj x hx2
      by_cases hcond : a + 360 - rest.getLastD a < v - u
      · rw [if_pos hcond]
        have ha180 : -180 ≤ a := (hl a (hperm.mem_iff.mp (List.mem_cons_self a rest))).1
        have hb180 : rest.getLastD a ≤ 180 :=
          (hl (rest.getLastD a) (hperm.mem_iff.mp (getLastD_mem_cons rest a))).2
        have huv : u < v := by linarith
        simp only [inLonSpan]
        rw [if_neg (not_le.mpr huv)]
        rcases hpart with h | h
        · exact Or.inr h
        · exact Or.inl h
      · rw [if_neg hcond]
        simp only [inLonSpan]
        rw [if_pos hab]
        exact ⟨hax, hxb⟩

/-- The validator of `Heatmap` accepts a proposal exactly when every point is
valid. -/
theorem heatmap_validate_none_iff (proposal : List (ℚ × ℚ)) :
    Heatmap._validate_data proposal = none ↔ ∀ p ∈ proposal, is_valid_point p = true := by
  constructor
  · intro h p hp
    by_contra hbad
    rcases hfind : proposal.find? (fun point => !is_valid_point point) with _ | q
    · have h2 := List.find?_eq_none.mp hfind p hp
      simp only [Bool.not_eq_true] at hbad
      simp [hbad] at h2
    · unfold Heatmap._validate_data at h
      rw [hfind] at h
      simp at h
  · intro hall
    have hfind : proposal.find? (fun point => !is_valid_point point) = none := by
      apply List.find?_eq_none.mpr
      intro q hq
      simp [hall q hq]
    unfold Heatmap._validate_data
    rw [hfind]

/-- The validator of `WeightedHeatmap` accepts a proposal exactly when the
first two components of every triple form a valid point. -/
theorem weighted_validate_none_iff (proposal : List (ℚ × ℚ × ℚ)) :
    WeightedHeatmap._validate_data proposal = none ↔
      ∀ t ∈ proposal, is_valid_point (t.1, t.2.1) = true := by
  constructor
  · intro h t ht
    by_contra hbad
    rcases hfind : proposal.find? (fun point => !is_valid_point (point.1, point.2.1)) with _ | q
    · have h2 := List.find?_eq_none.mp hfind t ht
      simp only [Bool.not_eq_true] at hbad
      simp [hbad] at h2
    · unfold WeightedHeatmap._validate_data at h
      rw [hfind] at h
      simp at h
  · intro hall
    have hfind : proposal.find? (fun point => !is_valid_point (point.1, point.2.1)) = none := by
      apply List.find?_eq_none.mpr
      intro q hq
      simp [hall q hq]
    unfold WeightedHeatmap._validate_data
    rw [hfind]

/-- Claim C1: for every proposed data value containing at least one invalid
point (equivalently: on which the scan for an invalid point finds a first
offender), the assignment to `data` — on `Heatmap`, or on `WeightedHeatmap`
judging only the first two components — returns the error naming that first
offending point and leaves the whole widget state, in particular the prior
`data` and `data_bounds` values, unchanged: the rejection is atomic. -/
theorem heatmap_data_rejection_atomic :
    (∀ (s : Heatmap) (proposal : List (ℚ × ℚ)) (p : ℚ × ℚ),
      proposal.find? (fun q => !is_valid_point q) = some p →
      Heatmap.assignData s proposal = (s, some (TraitError.invalidPoint p))) ∧
    (∀ (s : WeightedHeatmap) (proposal : List (ℚ × ℚ × ℚ)) (t : ℚ × ℚ × ℚ),
      proposal.find? (fun q => !is_valid_point (q.1, q.2.1)) = some t →
      WeightedHeatmap.assignData s proposal = (s, some (TraitError.invalidWeightedPoint t))) := by
  constructor
  · intro s proposal p h
    unfold Heatmap.assignData Heatmap._validate_data
    rw [h]
  · intro s proposal t h
    unfold WeightedHeatmap.assignData WeightedHeatmap._validate_data
    rw [h]

/-- Witness for C1 at a concrete input: latitude 91 is invalid, so the
two-point assignment is rejected naming (91, 0) and the fresh widget is
unchanged. -/
theorem heatmap_data_rejection_atomic_witness :
    Heatmap.assignData Heatmap.init [((91 : ℚ), (0 : ℚ)), ((45 : ℚ), (0 : ℚ))] =
      (Heatmap.init, some (TraitError.invalidPoint ((91 : ℚ), (0 : ℚ)))) :=
  heatmap_data_rejection_atomic.1 Heatmap.init [((91 : ℚ), (0 : ℚ)), ((45 : ℚ), (0 : ℚ))]
    ((91 : ℚ), (0 : ℚ)) (by decide)

/-- Claim C2: after every successful assignment to `data` — on `Heatmap` or
`WeightedHeatmap` — the stored `data` is the new value and `data_bounds` was
recomputed synchronously in the same call from the new data, equalling
[(min_latitude, min_longitude), (max_latitude, max_longitude)] as produced
by the latitude/longitude bounds functions; it is never stale. -/
theorem data_bounds_recomputed_on_assignment :
    (∀ (s s2 : Heatmap) (proposal : List (ℚ × ℚ)),
      Heatmap.assignData s proposal = (s2, none) →
      s2.data = proposal ∧
      s2.data_bounds =
        [((latitude_bounds (proposal.map fun row => row.1)).1,
          (longitude_bounds (proposal.map fun row => row.2)).1),
         ((latitude_bounds (proposal.map fun row => row.1)).2,
          (longitude_bounds (proposal.map fun row => row.2)).2)]) ∧
    (∀ (s s2 : WeightedHeatmap) (proposal : List (ℚ × ℚ × ℚ)),
      WeightedHeatmap.assignData s proposal = (s2, none) →
      s2.data = proposal ∧
      s2.data_bounds =
        [((latitude_bounds (proposal.map fun row => row.1)).1,
          (longitude_bounds (proposal.map fun row => row.2.1)).1),
         ((latitude_bounds (proposal.map fun row => row.1)).2,
          (longitude_bounds (proposal.map fun row => row.2.1)).2)]) := by
  constructor
  · intro s s2 proposal h
    unfold Heatmap.assignData at h
    rcases hv : Heatmap._validate_data proposal with _ | e
    · rw [hv] at h
      have hs2 : s2 = Heatmap.set_bounds { s with data := proposal } proposal := by
        have h2 := congrArg Prod.fst h
        exact h2.symm
      subst hs2
      exact ⟨rfl, rfl⟩
    · rw [hv] at h
      simp at h
  · intro s s2 proposal h
    unfold WeightedHeatmap.assignData at h
    rcases hv : WeightedHeatmap._validate_data proposal with _ | e
    · rw [hv] at h
      have hs2 : s2 = WeightedHeatmap.set_bounds { s with data := proposal } proposal := by
        have h2 := congrArg Prod.fst h
        exact h2.symm
      subst hs2
      exact ⟨rfl, rfl⟩
    · rw [hv] at h
      simp at h

/-- Witness for C2 at a concrete input: assigning the single point
(46.1, 5.2) succeeds and the resulting state stores the data and the
recomputed bounds. -/
theorem data_bounds_recomputed_on_assignment_witness :
    ({ Heatmap.init with
        data := [((46.1 : ℚ), (5.2 : ℚ))],
        data_bounds := [((46.1 : ℚ), (5.2 : ℚ)), ((46.1 : ℚ), (5.2 : ℚ))] } : Heatmap).data =
      [((46.1 : ℚ), (5.2 : ℚ))] ∧
    ({ Heatmap.init with
        data := [((46.1 : ℚ), (5.2 : ℚ))],
        data_bounds := [((46.1 : ℚ), (5.2 : ℚ)), ((46.1 : ℚ), (5.2 : ℚ))] } : Heatmap).data_bounds =
      [((latitude_bounds ([((46.1 : ℚ), (5.2 : ℚ))].map fun row => row.1)).1,
        (longitude_bounds ([((46.1 : ℚ), (5.2 : ℚ))].map fun row => row.2)).1),
       ((latitude_bounds ([((46.1 : ℚ), (5.2 : ℚ))].map fun row => row.1)).2,
        (longitude_bounds ([((46.1 : ℚ), (5.2 : ℚ))].map fun row => row.2)).2)] :=
  data_bounds_recomputed_on_assignment.1 Heatmap.init
    { Heatmap.init with
        data := [((46.1 : ℚ), (5.2 : ℚ))],
        data_bounds := [((46.1 : ℚ), (5.2 : ℚ)), ((46.1 : ℚ), (5.2 : ℚ))] }
    [((46.1 : ℚ), (5.2 : ℚ))]
    (by norm_num [Heatmap.assignData, Heatmap._validate_data, Heatmap.set_bounds, is_valid_point,
      latitude_bounds, longitude_bounds, maxAdjGap, gapStep, List.insertionSort,
      List.orderedInsert, List.find?])

/-- Claim C3: assigning `data` succeeds exactly when every point satisfies
latitude ∈ [-90, 90] and longitude ∈ [-180, 180]; for `WeightedHeatmap` only
the first two components of each triple are subject to the rule, so a triple
(46.1, 5.2, w) validates using only (46.1, 5.2), for every weight w. -/
theorem data_assignment_valid_iff :
    (∀ (s : Heatmap) (proposal : List (ℚ × ℚ)),
      (Heatmap.assignData s proposal).2 = none ↔ ∀ p ∈ proposal, is_valid_point p = true) ∧
    (∀ (s : WeightedHeatmap) (proposal : List (ℚ × ℚ × ℚ)),
      (WeightedHeatmap.assignData s proposal).2 = none ↔
        ∀ t ∈ proposal, is_valid_point (t.1, t.2.1) = true) ∧
    (∀ w : ℚ,
      (WeightedHeatmap.assignData WeightedHeatmap.init [((46.1 : ℚ), (5.2 : ℚ), w)]).2 = none) := by
  have hmap : ∀ (s : Heatmap) (proposal : List (ℚ × ℚ)),
      (Heatmap.assignData s proposal).2 = none ↔ Heatmap._validate_data proposal = none := by
    intro s proposal
    unfold Heatmap.assignData
    rcases hv : Heatmap._validate_data proposal with _ | e
    · simp
    · simp
  have wmap : ∀ (s : WeightedHeatmap) (proposal : List (ℚ × ℚ × ℚ)),
      (WeightedHeatmap.assignData s proposal).2 = none ↔
        WeightedHeatmap._validate_data proposal = none := by
    intro s proposal
    unfold WeightedHeatmap.assignData
    rcases hv : WeightedHeatmap._validate_data proposal with _ | e
    · simp
    · simp
  refine ⟨?_, ?_, ?_⟩
  · intro s proposal
    exact (hmap s proposal).trans (heatmap_validate_none_iff proposal)
  · intro s proposal
    exact (wmap s proposal).trans (weighted_validate_none_iff proposal)
  · intro w
    apply (wmap WeightedHeatmap.init [((46.1 : ℚ), (5.2 : ℚ), w)]).mpr
    apply (weighted_validate_none_iff [((46.1 : ℚ), (5.2 : ℚ), w)]).mpr
    intro t ht
    have ht2 : t = ((46.1 : ℚ), (5.2 : ℚ), w) := by simpa using ht
    subst ht2
    norm_num [is_valid_point]

/-- Witness for C3 at a concrete input: a valid single-point assignment on a
fresh `Heatmap` succeeds. -/
theorem data_assignment_valid_iff_witness :
    (Heatmap.assignData Heatmap.init [((46.1 : ℚ), (5.2 : ℚ))]).2 = none :=
  (data_assignment_valid_iff.1 Heatmap.init [((46.1 : ℚ), (5.2 : ℚ))]).mpr
    (by norm_num [is_valid_point])

/-- Claim C4 (evaluation at the failing input): the triple (46.1, 5.2, -1)
with a negative weight is accepted by the `WeightedHeatmap` data assignment
— the validator has no weight check (heatmap.py line 178 is only the comment
`# check weight`) — contradicting the documented requirement that weights be
non-negative. -/
theorem weighted_negative_weight_accepted :
    WeightedHeatmap.assignData WeightedHeatmap.init [((46.1 : ℚ), (5.2 : ℚ), (-1 : ℚ))] =
      ({ WeightedHeatmap.init with
          data := [((46.1 : ℚ), (5.2 : ℚ), (-1 : ℚ))],
          data_bounds := [((46.1 : ℚ), (5.2 : ℚ)), ((46.1 : ℚ), (5.2 : ℚ))] }, none) := by
  norm_num [WeightedHeatmap.assignData, WeightedHeatmap._validate_data, WeightedHeatmap.set_bounds,
    is_valid_point, latitude_bounds, longitude_bounds, maxAdjGap, gapStep, List.insertionSort,
    List.orderedInsert, List.find?]

/-- Claim C5 (evaluation at the failing input): assigning the non-positive
values -1 and 0 to `max_intensity` is accepted and stored — the trait is
declared `Float(default_value=None, allow_none=True)` with no minimum
(heatmap.py line 48) — contradicting the documented requirement that the
value be strictly positive. -/
theorem max_intensity_nonpositive_accepted :
    Heatmap.assignMaxIntensity Heatmap.init (some (-1 : ℚ)) =
      ({ Heatmap.init with max_intensity := some (-1 : ℚ) }, none) ∧
    Heatmap.assignMaxIntensity Heatmap.init (some (0 : ℚ)) =
      ({ Heatmap.init with max_intensity := some (0 : ℚ) }, none) := by
  constructor <;> norm_num [Heatmap.assignMaxIntensity, floatTraitValidate]

/-- Claim C6: assigning a value outside [0, 1] to `opacity` is rejected with
an error and the state is unchanged (the value is not clamped), while an
in-range assignment is stored exactly — on both layer classes. -/
theorem opacity_range_enforced :
    ∀ (s : Heatmap) (w : WeightedHeatmap) (v : ℚ),
      (((0 : ℚ) ≤ v ∧ v ≤ 1) →
        Heatmap.assignOpacity s v = ({ s with opacity := v }, none) ∧
        WeightedHeatmap.assignOpacity w v = ({ w with opacity := v }, none)) ∧
      (¬ ((0 : ℚ) ≤ v ∧ v ≤ 1) →
        Heatmap.assignOpacity s v = (s, some TraitError.invalidOption) ∧
        WeightedHeatmap.assignOpacity w v = (w, some TraitError.invalidOption)) := by
  intro s w v
  constructor
  · rintro ⟨h0, h1⟩
    constructor <;>
      simp [Heatmap.assignOpacity, WeightedHeatmap.assignOpacity, floatTraitValidate, h0, h1]
  · intro h
    have h2 : ¬ ((0 : ℚ) ≤ v) ∨ ¬ (v ≤ 1) := by tauto
    rcases h2 with h2 | h2 <;>
      constructor <;>
        simp [Heatmap.assignOpacity, WeightedHeatmap.assignOpacity, floatTraitValidate, h2]

/-- Witness for C6 at concrete inputs: opacity 1/2 is stored exactly on a
fresh `Heatmap` and a fresh `WeightedHeatmap`. -/
theorem opacity_range_enforced_witness :
    Heatmap.assignOpacity Heatmap.init ((1 : ℚ)/2) =
      ({ Heatmap.init with opacity := (1 : ℚ)/2 }, none) ∧
    WeightedHeatmap.assignOpacity WeightedHeatmap.init ((1 : ℚ)/2) =
      ({ WeightedHeatmap.init with opacity := (1 : ℚ)/2 }, none) :=
  (opacity_range_enforced Heatmap.init WeightedHeatmap.init ((1 : ℚ)/2)).1 (by norm_num)

/-- Claim C7: a freshly constructed `Heatmap` or `WeightedHeatmap` (no
constructor arguments) has dissipating = true, opacity = 0.6,
max_intensity = None and gradient = None. -/
theorem fresh_layer_option_defaults :
    Heatmap.init.dissipating = true ∧ Heatmap.init.opacity = 0.6 ∧
    Heatmap.init.max_intensity = none ∧ Heatmap.init.gradient = none ∧
    WeightedHeatmap.init.dissipating = true ∧ WeightedHeatmap.init.opacity = 0.6 ∧
    WeightedHeatmap.init.max_intensity = none ∧ WeightedHeatmap.init.gradient = none :=
  ⟨rfl, rfl, rfl, rfl, rfl, rfl, rfl, rfl⟩

/-- Claim C8: for every non-empty list of valid points whose longitudes do
not straddle the antimeridian (raw longitude spread at most 180°), the
assignment succeeds and `data_bounds` is exactly the coordinate-wise min/max
corners; in particular [(46.1, 5.2), (46.2, 5.3), (46.3, 5.4)] yields
bounds ((46.1, 5.2), (46.3, 5.4)). -/
theorem valid_data_bounds_minmax :
    (∀ (s : Heatmap) (p : ℚ × ℚ) (ps : List (ℚ × ℚ)),
      (∀ q ∈ p :: ps, is_valid_point q = true) →
      listMax ((p :: ps).map fun row => row.2) - listMin ((p :: ps).map fun row => row.2) ≤ 180 →
      Heatmap.assignData s (p :: ps) =
        ({ s with
            data := p :: ps,
            data_bounds :=
              [(listMin ((p :: ps).map fun row => row.1),
                listMin ((p :: ps).map fun row => row.2)),
               (listMax ((p :: ps).map fun row => row.1),
                listMax ((p :: ps).map fun row => row.2))] }, none)) ∧
    (Heatmap.assignData Heatmap.init
        [((46.1 : ℚ), (5.2 : ℚ)), ((46.2 : ℚ), (5.3 : ℚ)), ((46.3 : ℚ), (5.4 : ℚ))]).1.data_bounds =
      [((46.1 : ℚ), (5.2 : ℚ)), ((46.3 : ℚ), (5.4 : ℚ))] := by
  constructor
  · intro s p ps hvalid hspan
    have hv : Heatmap._validate_data (p :: ps) = none :=
      (heatmap_validate_none_iff (p :: ps)).mpr hvalid
    have hstep : Heatmap.assignData s (p :: ps) =
        (Heatmap.set_bounds { s with data := p :: ps } (p :: ps), none) := by
      unfold Heatmap.assignData
      rw [hv]
    rw [hstep]
    have hlat : latitude_bounds ((p :: ps).map fun row => row.1) =
        (listMin ((p :: ps).map fun row => row.1), listMax ((p :: ps).map fun row => row.1)) := rfl
    have hlon : longitude_bounds ((p :: ps).map fun row => row.2) =
        (listMin ((p :: ps).map fun row => row.2), listMax ((p :: ps).map fun row => row.2)) := by
      rw [List.map_cons] at hspan ⊢
      exact longitude_bounds_of_span_le p.2 (ps.map fun row => row.2) hspan
    simp only [Heatmap.set_bounds]
    rw [hlat, hlon]
  · norm_num [Heatmap.assignData, Heatmap._validate_data, Heatmap.set_bounds, is_valid_point,
      latitude_bounds, longitude_bounds, maxAdjGap, gapStep, List.insertionSort,
      List.orderedInsert, List.find?]

/-- Witness for C8 at a concrete input: two valid points with small
longitude spread produce the min/max corner bounds. -/
theorem valid_data_bounds_minmax_witness :
    Heatmap.assignData Heatmap.init [((10 : ℚ), (20 : ℚ)), ((11 : ℚ), (21 : ℚ))] =
      ({ Heatmap.init with
          data := [((10 : ℚ), (20 : ℚ)), ((11 : ℚ), (21 : ℚ))],
          data_bounds :=
            [(listMin ([((10 : ℚ), (20 : ℚ)), ((11 : ℚ), (21 : ℚ))].map fun row => row.1),
              listMin ([((10 : ℚ), (20 : ℚ)), ((11 : ℚ), (21 : ℚ))].map fun row => row.2)),
             (listMax ([((10 : ℚ), (20 : ℚ)), ((11 : ℚ), (21 : ℚ))].map fun row => row.1),
              listMax ([((10 : ℚ), (20 : ℚ)), ((11 : ℚ), (21 : ℚ))].map fun row => row.2))] },
        none) :=
  valid_data_bounds_minmax.1 Heatmap.init ((10 : ℚ), (20 : ℚ)) [((11 : ℚ), (21 : ℚ))]
    (by norm_num [is_valid_point]) (by norm_num [listMin, listMax, List.foldl])

/-- Claim C9: the longitude component of the computed bounds chooses the
circular interval of minimal angular width containing all longitudes: for
longitudes {179, -179} the span is ((179, -179)), crossing the antimeridian
(max < min) with width 2 rather than 358; and in general every longitude of
a validated list lies inside the computed span. -/
theorem longitude_wraparound_bounds :
    (longitude_bounds [(179 : ℚ), (-179 : ℚ)] = ((179 : ℚ), (-179 : ℚ)) ∧
     lonSpanWidth (longitude_bounds [(179 : ℚ), (-179 : ℚ)]) = 2 ∧
     (longitude_bounds [(179 : ℚ), (-179 : ℚ)]).2 < (longitude_bounds [(179 : ℚ), (-179 : ℚ)]).1) ∧
    (∀ l : List ℚ, (∀ y ∈ l, -180 ≤ y ∧ y ≤ 180) →
      ∀ x ∈ l, inLonSpan (longitude_bounds l) x) := by
  constructor
  · refine ⟨?_, ?_, ?_⟩ <;>
      norm_num [lonSpanWidth, longitude_bounds, maxAdjGap, gapStep, List.insertionSort,
        List.orderedInsert]
  · intro l hl x hx
    exact longitude_bounds_mem_span l hl x hx

/-- Witness for C9 at a concrete input: 179 lies inside the wrapped span of
{179, -179}. -/
theorem longitude_wraparound_bounds_witness :
    inLonSpan (longitude_bounds [(179 : ℚ), (-179 : ℚ)]) (179 : ℚ) :=
  longitude_wraparound_bounds.2 [(179 : ℚ), (-179 : ℚ)] (by norm_num) (179 : ℚ)
    (by norm_num)

/-- Claim C10: assigning any option field (max_intensity, point_radius,
dissipating, opacity, gradient) on a `Heatmap` or `WeightedHeatmap` leaves
`data` and `data_bounds` unchanged — whether the assignment is accepted or
rejected — since only `data` assignments trigger bounds recomputation. -/
theorem option_assignment_preserves_data :
    ∀ (s : Heatmap) (w : WeightedHeatmap) (mi pr : Option ℚ) (b : Bool) (v : ℚ)
      (g : Option (List ColorAlpha)),
      (Heatmap.assignMaxIntensity s mi).1.data = s.data ∧
      (Heatmap.assignMaxIntensity s mi).1.data_bounds = s.data_bounds ∧
      (Heatmap.assignPointRadius s pr).1.data = s.data ∧
      (Heatmap.assignPointRadius s pr).1.data_bounds = s.data_bounds ∧
      (Heatmap.assignDissipating s b).1.data = s.data ∧
      (Heatmap.assignDissipating s b).1.data_bounds = s.data_bounds ∧
      (Heatmap.assignOpacity s v).1.data = s.data ∧
      (Heatmap.assignOpacity s v).1.data_bounds = s.data_bounds ∧
      (Heatmap.assignGradient s g).1.data = s.data ∧
      (Heatmap.assignGradient s g).1.data_bounds = s.data_bounds ∧
      (WeightedHeatmap.assignMaxIntensity w mi).1.data = w.data ∧
      (WeightedHeatmap.assignMaxIntensity w mi).1.data_bounds = w.data_bounds ∧
      (WeightedHeatmap.assignPointRadius w pr).1.data = w.data ∧
      (WeightedHeatmap.assignPointRadius w pr).1.data_bounds = w.data_bounds ∧
      (WeightedHeatmap.assignDissipating w b).1.data = w.data ∧
      (WeightedHeatmap.assignDissipating w b).1.data_bounds = w.data_bounds ∧
      (WeightedHeatmap.assignOpacity w v).1.data = w.data ∧
      (WeightedHeatmap.assignOpacity w v).1.data_bounds = w.data_bounds ∧
      (WeightedHeatmap.assignGradient w g).1.data = w.data ∧
      (WeightedHeatmap.assignGradient w g).1.data_bounds = w.data_bounds := by
  intro s w mi pr b v g
  refine ⟨?_, ?_, ?_, ?_, ?_, ?_, ?_, ?_, ?_, ?_, ?_, ?_, ?_, ?_, ?_, ?_, ?_, ?_, ?_, ?_⟩ <;>
    simp only [Heatmap.assignMaxIntensity, Heatmap.assignPointRadius, Heatmap.assignDissipating,
      Heatmap.assignOpacity, Heatmap.assignGradient, WeightedHeatmap.assignMaxIntensity,
      WeightedHeatmap.assignPointRadius, WeightedHeatmap.assignDissipating,
      WeightedHeatmap.assignOpacity, WeightedHeatmap.assignGradient] <;>
    first
    | rfl
    | (split <;> rfl)
